import Mathlib

/-!
Shallow embedding of the request hooks and pure data-transformation
functions of this repository, together with theorems settling the
specification claims about them.

Embedded source artefacts:
* `src/todolist/hooks/useRequest.ts` — the `useRequest` hook: its state,
  its `run` dispatch/settlement logic and its unmount cleanup, modelled as
  a labelled transition system (`HookState`, `UStep`, `Reachable`) plus a
  pure settlement function (`runSettle`) that also records the promise
  outcome crossing the component boundary and the callbacks invoked.
* `src/axios4/useAxios.ts` — the `useAxios` hook, modelled as its own
  transition system (`AxState`, `AxStep`, `AxReachable`): `fetchData`
  dispatches without aborting anything, and its catch block swallows every
  error, resetting `data` to null on a non-cancellation failure.
* `src/unnamed/part_007` / `part_008` — the retry/cache `useAxios`
  variant: the retry loop of `fetchData` (`failAttempt`, `runAllFail`) and
  its cache-lookup head (`fetchDataStart`).
* `src/unnamed/part_010` — the cache-keyed `useAxios` variant: the cache
  head of `execute` (`executeStart`).
* `src/unnamed/part_001` — `generateC`.
* `src/unnamed/part_003` — `transformToBarData`.

Request identifiers and payload values are modelled as `Nat`; error
payloads as `Nat` (useRequest / axios4) or `String` (the retry variant,
which stores `err.message`). JavaScript `[...new Set(xs)]` is embedded as
`jsSetDedup` (insertion-order deduplication).
-/

/-- Outcome with which a dispatched request settles: the underlying axios
promise resolves with a value, rejects with a non-cancellation error, or
rejects with a cancellation error (the request's signal was aborted). -/
inductive ReqOutcome where
  | success (v : Nat)
  | failure (e : Nat)
  | cancelled
deriving DecidableEq, Repr

/-! ## useRequest (src/todolist/hooks/useRequest.ts) -/

/-- State of one `useRequest` instance: the three React state cells
(`data`, `error`, `loading`), plus the request-lifecycle bookkeeping the
hook keeps in refs and the environment keeps implicitly: whether the
component is still mounted, the id of the controller currently stored in
`abortControllerRef`, the ids of dispatched but unsettled requests, and
the ids whose abort controllers have been aborted. -/
structure HookState where
  data : Option Nat
  error : Option Nat
  loading : Bool
  mounted : Bool
  current : Option Nat
  inflight : List Nat
  aborted : List Nat
  nextId : Nat
deriving DecidableEq, Repr

/-- Initial state of `useRequest config {manual, initialData}`:
`useState(!manual)` for loading, `useState(initialData)` for data,
`useState(null)` for error; no controller, nothing in flight. -/
def initUseRequest (manual : Bool) (initialData : Option Nat) : HookState :=
  { data := initialData, error := none, loading := !manual, mounted := true,
    current := none, inflight := [], aborted := [], nextId := 0 }

/-- `abortControllerRef.current?.abort()`: the current controller, if any,
becomes aborted. -/
def abortCurrent (s : HookState) : HookState :=
  match s.current with
  | some i => { s with aborted := i :: s.aborted }
  | none => s

/-- The synchronous prefix of `run`: abort the previous controller, create
a fresh one, dispatch the request with its signal, `setLoading(true)`,
`setError(null)`. -/
def runStep (s : HookState) : HookState :=
  let s := abortCurrent s
  { s with current := some s.nextId, inflight := s.nextId :: s.inflight,
           nextId := s.nextId + 1, loading := true, error := none }

/-- The settlement of request `id` inside `run`'s try/catch/finally:
on success `setData`; on a cancellation error the catch returns early
without touching data or error; on any other error `setError`; the
`finally` block runs `setLoading(false)` in every case. -/
def settleStep (s : HookState) (id : Nat) (res : ReqOutcome) : HookState :=
  let s := { s with inflight := s.inflight.erase id }
  match res with
  | .success v => { s with data := some v, loading := false }
  | .cancelled => { s with loading := false }
  | .failure e => { s with error := some e, loading := false }

/-- The unmount cleanup registered in `useEffect`: abort the current
controller; afterwards the component is unmounted. -/
def unmountStep (s : HookState) : HookState :=
  { abortCurrent s with mounted := false }

/-- Events driving a `useRequest` instance. -/
inductive HookEvent where
  | run
  | settle (id : Nat) (res : ReqOutcome)
  | unmount
deriving DecidableEq, Repr

/-- Labelled transition relation of one `useRequest` instance. `run` and
`unmount` require a mounted component; a settlement concerns a dispatched,
unsettled request, and a request whose controller was aborted before it
settled settles with a cancellation error. -/
inductive UStep : HookState → HookEvent → HookState → Prop where
  | run {s : HookState} : s.mounted = true → UStep s .run (runStep s)
  | settle {s : HookState} (id : Nat) (res : ReqOutcome) :
      id ∈ s.inflight → (id ∈ s.aborted → res = .cancelled) →
      UStep s (.settle id res) (settleStep s id res)
  | unmount {s : HookState} : s.mounted = true → UStep s .unmount (unmountStep s)

/-- Reachability from an initial state through `UStep` transitions. -/
inductive Reachable (init : HookState) : HookState → Prop where
  | refl : Reachable init init
  | step {s s' : HookState} {e : HookEvent} :
      Reachable init s → UStep s e s' → Reachable init s'

/-! ## useAxios (src/axios4/useAxios.ts) -/

/-- State of one `useAxios` instance from `src/axios4/useAxios.ts`: the
single `useState` record `{data, loading, error}`, plus the dispatched but
unsettled requests, whether the single `AbortController` created by the
hook has been aborted (all requests share its signal, because `fetchData`
is memoised with an empty dependency list), and a fresh-id counter. -/
structure AxState where
  data : Option Nat
  error : Option Nat
  loading : Bool
  inflight : List Nat
  aborted : Bool
  nextId : Nat
deriving DecidableEq, Repr

/-- Initial state: `useState({data: null, loading: immediate, error: null})`;
nothing dispatched, controller not aborted. -/
def axInit (immediate : Bool) : AxState :=
  { data := none, error := none, loading := immediate,
    inflight := [], aborted := false, nextId := 0 }

/-- The synchronous prefix of `fetchData` (reached via the mount effect or
`refetch`): `setState(prev => ({...prev, loading: true}))` and dispatch of
a new request carrying the shared controller's signal. No abort of any
previous request happens here. -/
def axFetch (s : AxState) : AxState :=
  { s with loading := true, inflight := s.nextId :: s.inflight,
           nextId := s.nextId + 1 }

/-- Settlement of request `id` inside `fetchData`'s try/catch: on success
the whole state record is replaced by `{data: response.data, loading:
false, error: null}`; a `CanceledError` is ignored entirely; any other
error replaces the record by `{data: null, loading: false, error}`. -/
def axSettle (s : AxState) (id : Nat) (res : ReqOutcome) : AxState :=
  let s := { s with inflight := s.inflight.erase id }
  match res with
  | .success v => { s with data := some v, error := none, loading := false }
  | .cancelled => s
  | .failure e => { s with data := none, error := some e, loading := false }

/-- `cancel()` (also the unmount cleanup): abort the shared controller. -/
def axCancel (s : AxState) : AxState :=
  { s with aborted := true }

/-- Events driving a `useAxios` instance. -/
inductive AxEvent where
  | fetch
  | settle (id : Nat) (res : ReqOutcome)
  | cancel
deriving DecidableEq, Repr

/-- Labelled transition relation of one `useAxios` instance. Once the
shared controller is aborted, every settlement is a cancellation. -/
inductive AxStep : AxState → AxEvent → AxState → Prop where
  | fetch {s : AxState} : AxStep s .fetch (axFetch s)
  | settle {s : AxState} (id : Nat) (res : ReqOutcome) :
      id ∈ s.inflight → (s.aborted = true → res = .cancelled) →
      AxStep s (.settle id res) (axSettle s id res)
  | cancel {s : AxState} : AxStep s .cancel (axCancel s)

/-- Reachability from an initial state through `AxStep` transitions. -/
inductive AxReachable (init : AxState) : AxState → Prop where
  | refl : AxReachable init init
  | step {s s' : AxState} {e : AxEvent} :
      AxReachable init s → AxStep s e s' → AxReachable init s'

/-! ## Pure settlement views (promise results and callbacks) -/

/-- Result of the promise `run` returns to its caller: resolved with the
data, rejected with a non-cancellation error, or rejected with the
cancellation reason. -/
inductive PromiseResult where
  | resolved (v : Nat)
  | rejected (e : Nat)
  | rejectedCancel
deriving DecidableEq, Repr

/-- The three `useState` cells of `useRequest`, isolated from the
lifecycle bookkeeping. -/
structure HookCore where
  data : Option Nat
  error : Option Nat
  loading : Bool
deriving DecidableEq, Repr

/-- Everything `useRequest.run`'s settlement produces: the new state
cells, the outcome of the promise `run` returned, and the payloads passed
to the `onSuccess` / `onError` callbacks (none when not invoked). -/
structure RunEffects where
  state : HookCore
  promise : PromiseResult
  onSuccessCalled : Option Nat
  onErrorCalled : Option Nat
deriving DecidableEq, Repr

/-- Settlement of `useRequest.run` as a pure function of the pre-state and
the request outcome. Success: `setData(data)`, `onSuccess?.(data)`,
`return data`. Cancellation: `return Promise.reject(err)` with no state
write in the catch. Failure: `setError(error)`, `onError?.(error)`,
`throw error`. The `finally` block always runs `setLoading(false)`. -/
def runSettle (s : HookCore) : ReqOutcome → RunEffects
  | .success v =>
      { state := { data := some v, error := s.error, loading := false },
        promise := .resolved v, onSuccessCalled := some v, onErrorCalled := none }
  | .cancelled =>
      { state := { data := s.data, error := s.error, loading := false },
        promise := .rejectedCancel, onSuccessCalled := none, onErrorCalled := none }
  | .failure e =>
      { state := { data := s.data, error := some e, loading := false },
        promise := .rejected e, onSuccessCalled := none, onErrorCalled := some e }

/-- Result of the `Promise<void>` that `fetchData` of
`src/axios4/useAxios.ts` returns to its caller. -/
inductive VoidPromise where
  | resolvedVoid
  | rejectedVoid (e : Nat)
deriving DecidableEq, Repr

/-- The promise outcome of axios4's `fetchData` per request outcome: the
try/catch covers the whole body and the catch block neither rethrows nor
returns a rejection, so the async function resolves in every case. -/
def fetchDataPromise : ReqOutcome → VoidPromise
  | .success _ => .resolvedVoid
  | .cancelled => .resolvedVoid
  | .failure _ => .resolvedVoid

/-! ## The retry/cache useAxios variant (src/unnamed/part_007, part_008) -/

/-- React state cells of the retry/cache `useAxios` variant plus its
`retryCountRef` ref. `error` stores `err.message` (a string). -/
structure RetrySt where
  response : Option Nat
  error : Option String
  loading : Bool
  retryCount : Nat
deriving DecidableEq, Repr

/-- One failed attempt of `fetchData` (cache miss, request rejects with a
non-cancellation error carrying `msg`). Catch block: `setError(msg)`; if
`retryCountRef.current < retry` the counter is incremented and a retry is
scheduled via `setTimeout` (returned boolean `true`), else
`setLoading(false)`. The `finally` block then runs `setLoading(false)`
when the (already incremented) counter has reached `retry`. -/
def failAttempt (retry : Nat) (s : RetrySt) (msg : String) : RetrySt × Bool :=
  if s.retryCount < retry then
    let c := s.retryCount + 1
    ({ s with error := some msg, retryCount := c,
              loading := if retry ≤ c then false else s.loading }, true)
  else
    ({ s with error := some msg, loading := false }, false)

/-- A whole logical call of `fetchData` in which every attempt fails with
`msg`: runs `failAttempt` and, while a retry was scheduled, runs the
scheduled `fetchData` again. Returns the final state and the number of
request attempts performed. -/
def runAllFail (retry : Nat) (s : RetrySt) (msg : String) : RetrySt × Nat :=
  if h : s.retryCount < retry then
    let (s2, n) := runAllFail retry (failAttempt retry s msg).1 msg
    (s2, n + 1)
  else
    ((failAttempt retry s msg).1, 1)
termination_by retry - s.retryCount
decreasing_by
  simp [failAttempt, h]
  omega

/-- Cache entry of the part_008 variant: `{data, timestamp}`. -/
structure CacheEntry where
  data : Nat
  timestamp : Nat
deriving DecidableEq, Repr

/-- Association-list lookup standing for the plain-object indexing
`cacheRef.current[url]` / `cacheStore[key]`. -/
def cacheLookup (store : List (String × CacheEntry)) (key : String) : Option CacheEntry :=
  match store with
  | [] => none
  | (k, e) :: rest => if k = key then some e else cacheLookup rest key

/-- What the head of `fetchData` decides: serve the cached value without
any network dispatch, or fall through to the network request. -/
inductive FetchStart where
  | cacheHit (v : Nat)
  | network
deriving DecidableEq, Repr

/-- The cache head of part_008's `fetchData`:
`if (cache && cacheRef.current[url] && Date.now() - cacheRef.current[url].timestamp < cacheExpiry)`
then `setResponse(cached.data); setLoading(false); return;` — otherwise
the axios request is dispatched. (part_007 is the same with the expiry
conjunct absent.) -/
def fetchDataStart (cache : Bool) (cacheExpiry : Nat) (now : Nat)
    (store : List (String × CacheEntry)) (url : String) : FetchStart :=
  if cache then
    match cacheLookup store url with
    | some e => if now - e.timestamp < cacheExpiry then .cacheHit e.data else .network
    | none => .network
  else .network

/-- The state updates of a cache hit in part_008's `fetchData`:
`setResponse(cached)`, `setLoading(false)`, early return. -/
def cacheHitUpdate (s : RetrySt) (v : Nat) : RetrySt :=
  { s with response := some v, loading := false }

/-! ## The cache-keyed useAxios variant (src/unnamed/part_010) -/

/-- `isCacheValid(key)` of part_010: the entry exists and
`Date.now() - cache.timestamp < cacheDuration`. -/
def isCacheValid (store : List (String × CacheEntry)) (cacheDuration : Nat)
    (now : Nat) (key : String) : Bool :=
  match cacheLookup store key with
  | none => false
  | some c => now - c.timestamp < cacheDuration

/-- The cache head of part_010's `execute`: after `setLoading(true)` and
`setError(null)`, `if (cacheKey && isCacheValid(cacheKey))` serves
`cacheStore[cacheKey].data` (via `setData` and `onSuccess`) and returns
without creating an abort controller or dispatching; otherwise the network
request is dispatched. JavaScript string truthiness makes an empty cache
key fall through to the network. -/
def executeStart (cacheKey : Option String) (cacheDuration : Nat) (now : Nat)
    (store : List (String × CacheEntry)) : FetchStart :=
  match cacheKey with
  | some k =>
      if k ≠ "" ∧ isCacheValid store cacheDuration now k then
        match cacheLookup store k with
        | some c => .cacheHit c.data
        | none => .network
      else .network
  | none => .network

/-! ## generateC (src/unnamed/part_001) and its data model -/

/-- A column descriptor as consumed by `generateC`: `field`, `headerName`
and an optional predefined `options` array whose elements carry a `label`.
Option labels and row-cell values are modelled as strings. -/
structure ColDesc where
  field : String
  headerName : String
  options : Option (List String)
deriving DecidableEq, Repr

/-- A data row, as the indexing `entry[field]` uses it: a map from field
names to cell values. -/
def Row : Type := String → String

/-- One element of `generateC`'s result: `{label, listOptions}`, with
`listOptions` flattened to the option labels. -/
structure FilterCol where
  label : String
  listOptions : List String
deriving DecidableEq, Repr

/-- `[...new Set(xs)]`: JavaScript `Set` insertion-order deduplication —
the head is kept and every later duplicate of it is dropped. -/
def jsSetDedup : List String → List String
  | [] => []
  | x :: xs => x :: jsSetDedup (xs.filter (fun y => y ≠ x))
termination_by l => l.length
decreasing_by
  simp only [List.length_cons]
  exact Nat.lt_succ_of_le (List.length_filter_le _ _)

/-- `generateC(a, b)`: one record per descriptor; with predefined options
their labels are used directly, otherwise the options are the deduplicated
values of `b`'s entries at the descriptor's field. -/
def generateC (a : List ColDesc) (b : List Row) : List FilterCol :=
  a.map fun item =>
    match item.options with
    | some opts => { label := item.headerName, listOptions := opts }
    | none =>
        { label := item.headerName,
          listOptions := jsSetDedup (b.map fun entry => entry item.field) }

/-- Specification-side formulation of "the distinct values in
first-occurrence order with duplicates removed": a left fold that appends
each value not seen before. Used to state the claims independently of
`jsSetDedup`. -/
def firstOcc (xs : List String) : List String :=
  xs.foldl (fun acc x => if x ∈ acc then acc else acc ++ [x]) []

/-! ## transformToBarData (src/unnamed/part_003) -/

/-- One element of the `components` input array of `transformToBarData`. -/
structure Component where
  name : String
  label : String
  value : Nat
  color : String
deriving DecidableEq, Repr

/-- One bar series of the result: `{data, stack, label, color}`; `color`
is optional because `components.find(...)?.color` can be undefined. -/
structure BarSeries where
  data : List Nat
  stack : String
  label : String
  color : Option String
deriving DecidableEq, Repr

/-- The result record `{barData, labels}` of `transformToBarData`. -/
structure BarResult where
  barData : List BarSeries
  labels : List String
deriving DecidableEq, Repr

/-- `transformToBarData(components)`: distinct names and labels via
`new Set`; one series per distinct label whose data has, per distinct
name, the value of the first component matching both name and label (0
when absent); stack `A`; the color of the first component with the
label. -/
def transformToBarData (components : List Component) : BarResult :=
  let names := jsSetDedup (components.map (fun item => item.name))
  let uniqueLabels := jsSetDedup (components.map (fun item => item.label))
  let barData := uniqueLabels.map fun label =>
    let data := names.map fun name =>
      match components.find? (fun comp => comp.name = name && comp.label = label) with
      | some item => item.value
      | none => 0
    let color := (components.find? (fun comp => comp.label = label)).map
      (fun comp => comp.color)
    { data := data, stack := "A", label := label, color := color : BarSeries }
  { barData := barData, labels := names }

/-- Lifecycle invariant of a `useRequest` instance: every dispatched,
unsettled request either has an aborted controller or is the current one
of a still-mounted component. -/
def GoodInflight (s : HookState) : Prop :=
  ∀ id ∈ s.inflight, id ∈ s.aborted ∨ (s.mounted = true ∧ s.current = some id)


/-! ## Helper lemmas -/

/-- The retry condition of `failAttempt` is exactly
`retryCountRef.current < retry`, the guard `runAllFail` recurses on. -/
theorem failAttempt_again (retry : Nat) (s : RetrySt) (msg : String) :
    (failAttempt retry s msg).2 = decide (s.retryCount < retry) := by
  simp only [failAttempt]
  split <;> simp_all

/-- Folding the first-occurrence accumulator over `xs` starting from `acc`
appends exactly the `Set`-deduplication of the not-yet-seen elements. -/
theorem foldl_dedup_eq (xs : List String) : ∀ acc : List String,
    xs.foldl (fun a x => if x ∈ a then a else a ++ [x]) acc
      = acc ++ jsSetDedup (xs.filter (fun y => y ∉ acc)) := by
  induction xs with
  | nil => intro acc; simp [jsSetDedup]
  | cons x xs ih =>
    intro acc
    simp only [List.foldl_cons, List.filter_cons]
    by_cases hx : x ∈ acc
    · rw [if_pos hx]
      rw [if_neg (by simp [hx] : ¬ (decide (x ∉ acc) = true))]
      exact ih acc
    · rw [if_neg hx]
      rw [if_pos (by simp [hx] : decide (x ∉ acc) = true)]
      rw [jsSetDedup, ih (acc ++ [x])]
      simp only [List.append_assoc, List.singleton_append]
      congr 2
      rw [List.filter_filter]
      congr 1
      apply List.filter_congr
      intro y _
      simp only [List.mem_append, List.mem_singleton]
      by_cases h1 : y ∈ acc <;> by_cases h2 : y = x <;> simp [h1, h2]

/-- The `Set`-based deduplication of the source equals the
specification-side first-occurrence fold. -/
theorem jsSetDedup_eq_firstOcc (xs : List String) : jsSetDedup xs = firstOcc xs := by
  rw [firstOcc, foldl_dedup_eq xs []]
  simp

/-- A logical `fetchData` call in which every attempt fails performs
`retry - retryCount + 1` attempts and ends with the error stored, loading
cleared, and the counter at `max retry retryCount` (the counter is never
reset). -/
theorem runAllFail_spec (retry : Nat) (msg : String) (s : RetrySt) :
    (runAllFail retry s msg).2 = retry - s.retryCount + 1 ∧
    (runAllFail retry s msg).1 =
      { response := s.response, error := some msg, loading := false,
        retryCount := max retry s.retryCount } := by
  induction s, msg using runAllFail.induct retry with
  | case1 s msg h s2 n heq ih =>
    rw [runAllFail]
    simp only [dif_pos h, heq]
    rw [heq] at ih
    obtain ⟨ha, hs⟩ := ih
    constructor
    · simp only at ha
      rw [ha]
      simp [failAttempt, h]
      omega
    · simp only at hs
      rw [hs]
      simp [failAttempt, h]
      omega
  | case2 s msg h =>
    rw [runAllFail]
    simp only [dif_neg h]
    constructor
    · show 1 = retry - s.retryCount + 1
      omega
    · simp [failAttempt, h]
      omega

/-- Every `useRequest` transition preserves the lifecycle invariant. -/
theorem goodInflight_step {s s' : HookState} {e : HookEvent}
    (hstep : UStep s e s') (hg : GoodInflight s) : GoodInflight s' := by
  cases hstep with
  | run hm =>
    intro id hid
    cases hc : s.current with
    | none =>
      simp only [runStep, abortCurrent, hc] at hid ⊢
      simp only [List.mem_cons] at hid
      rcases hid with rfl | hid
      · right; exact ⟨hm, rfl⟩
      · rcases hg id hid with hab | ⟨_, hcur⟩
        · left; exact hab
        · rw [hc] at hcur; cases hcur
    | some j =>
      simp only [runStep, abortCurrent, hc] at hid ⊢
      simp only [List.mem_cons] at hid ⊢
      rcases hid with rfl | hid
      · right; exact ⟨hm, rfl⟩
      · rcases hg id hid with hab | ⟨_, hcur⟩
        · left; right; exact hab
        · rw [hc] at hcur
          injection hcur with hj
          left; left; exact hj.symm
  | settle id0 res hin hforce =>
    intro id hid
    simp only [settleStep] at hid ⊢
    have hid' : id ∈ s.inflight := by
      cases res <;> simp_all <;> exact List.mem_of_mem_erase (by assumption)
    cases res <;> exact hg id hid'
  | unmount hm =>
    intro id hid
    cases hc : s.current with
    | none =>
      simp only [unmountStep, abortCurrent, hc] at hid ⊢
      rcases hg id hid with hab | ⟨_, hcur⟩
      · left; exact hab
      · rw [hc] at hcur; cases hcur
    | some j =>
      simp only [unmountStep, abortCurrent, hc] at hid ⊢
      rcases hg id hid with hab | ⟨_, hcur⟩
      · left; right; exact hab
      · rw [hc] at hcur
        injection hcur with hj
        cases hj
        left; exact List.mem_cons_self _ _

/-- The lifecycle invariant holds in every reachable `useRequest` state. -/
theorem reachable_goodInflight {m : Bool} {d : Option Nat} {s : HookState}
    (h : Reachable (initUseRequest m d) s) : GoodInflight s := by
  induction h with
  | refl => intro id hid; simp [initUseRequest] at hid
  | step _ hstep ih => exact goodInflight_step hstep ih

/-! ## Claim C1 -/

/-- Claim C1, counterexample: in `src/axios4/useAxios.ts`, starting a new
request via `refetch` while one is outstanding does not cancel the
previous one (the shared controller stays unaborted), and the previous
request's later resolution overwrites the state the newer request had
produced: after two overlapping fetches, the newer settles with value 2,
then the older settles with value 1 and the stored data ends as 1. -/
theorem useAxios_refetch_no_cancel_cex :
    AxReachable (axInit false) (axFetch (axFetch (axInit false))) ∧
    0 ∈ (axFetch (axFetch (axInit false))).inflight ∧
    (axFetch (axFetch (axInit false))).aborted = false ∧
    AxReachable (axInit false)
      (axSettle (axSettle (axFetch (axFetch (axInit false))) 1 (.success 2)) 0 (.success 1)) ∧
    (axSettle (axFetch (axFetch (axInit false))) 1 (.success 2)).data = some 2 ∧
    (axSettle (axSettle (axFetch (axFetch (axInit false))) 1 (.success 2)) 0 (.success 1)).data
      = some 1 := by
  refine ⟨.step (.step .refl .fetch) .fetch, by decide, by decide, ?_, by decide, by decide⟩
  exact .step (.step (.step (.step .refl .fetch) .fetch)
    (.settle 1 (.success 2) (by decide) (by decide)))
    (.settle 0 (.success 1) (by decide) (by decide))

/-- Claim C1, amended: in `useRequest`, `run` aborts the previous current
controller first, and a request whose controller was aborted settles as a
cancellation (enforced by `UStep.settle`), whose settlement never
overwrites `data` or `error` — it does still set `loading` to false via
the `finally` block, and axios4's `refetch` performs no cancellation at
all. -/
theorem useRequest_run_supersedes (s s2 s2' : HookState) (i id2 : Nat) (res : ReqOutcome)
    (hcur : s.current = some i)
    (hstep : UStep s2 (.settle id2 res) s2')
    (hab : id2 ∈ s2.aborted) :
    i ∈ (runStep s).aborted ∧ s2'.data = s2.data ∧ s2'.error = s2.error := by
  refine ⟨?_, ?_⟩
  · simp only [runStep, abortCurrent, hcur]
    exact List.mem_cons_self _ _
  · cases hstep with
    | settle id res hin hforce =>
      have hres := hforce hab
      subst hres
      simp [settleStep]

/-- Witness for `useRequest_run_supersedes` at a concrete double-run
trace: the first request (id 0) is aborted by the second `run`, and its
cancelled settlement leaves data and error unchanged. -/
theorem useRequest_run_supersedes_witness :
    0 ∈ (runStep (runStep (initUseRequest true none))).aborted ∧
    (settleStep (runStep (runStep (initUseRequest true none))) 0 ReqOutcome.cancelled).data
      = (runStep (runStep (initUseRequest true none))).data ∧
    (settleStep (runStep (runStep (initUseRequest true none))) 0 ReqOutcome.cancelled).error
      = (runStep (runStep (initUseRequest true none))).error := by
  have h := useRequest_run_supersedes (runStep (initUseRequest true none))
    (runStep (runStep (initUseRequest true none)))
    (settleStep (runStep (runStep (initUseRequest true none))) 0 ReqOutcome.cancelled)
    0 0 ReqOutcome.cancelled (by decide)
    (UStep.settle 0 ReqOutcome.cancelled (by decide) (by decide)) (by decide)
  exact ⟨h.1, h.2.1, h.2.2⟩

/-! ## Claim C2 -/

/-- Claim C2, counterexample: in `src/axios4/useAxios.ts` a
non-cancellation failure does not leave prior data untouched — along a
reachable trace holding `data = some 7`, a failed request stores the error
but resets `data` to null. -/
theorem useAxios_failure_resets_data_cex :
    AxReachable (axInit false)
      (axSettle (axFetch (axSettle (axFetch (axInit false)) 0 (.success 7))) 1 (.failure 3)) ∧
    (axFetch (axSettle (axFetch (axInit false)) 0 (.success 7))).data = some 7 ∧
    (axSettle (axFetch (axSettle (axFetch (axInit false)) 0 (.success 7))) 1 (.failure 3)).error
      = some 3 ∧
    (axSettle (axFetch (axSettle (axFetch (axInit false)) 0 (.success 7))) 1 (.failure 3)).data
      = none := by
  refine ⟨?_, by decide, by decide, by decide⟩
  exact .step (.step (.step (.step .refl .fetch)
    (.settle 0 (.success 7) (by decide) (by decide))) .fetch)
    (.settle 1 (.failure 3) (by decide) (by decide))

/-- Claim C2, amended: every non-cancellation failure stores a typed
error in the hook's error state; `useRequest` leaves the previously
stored data unchanged, but axios4's `useAxios` resets data to null when
storing the error. -/
theorem failure_stores_error_amended (c : HookCore) (e : Nat) (t : AxState) (id : Nat) :
    (runSettle c (.failure e)).state.error = some e ∧
    (runSettle c (.failure e)).state.data = c.data ∧
    (axSettle t id (.failure e)).error = some e ∧
    (axSettle t id (.failure e)).data = none := by
  simp [runSettle, axSettle]

/-! ## Claim C3 -/

/-- Claim C3, counterexample: with `retry = 1`, the very first failed
attempt of `fetchData` (part_007/part_008) already stores the error
message — and schedules a retry — so the error state is not set only
after the last attempt; the second conjunct shows the counter is not
reset either: a call starting at an exhausted counter performs a single
attempt. -/
theorem retry_error_before_last_attempt_cex :
    failAttempt 1 { response := none, error := none, loading := true, retryCount := 0 } "boom"
      = ({ response := none, error := some "boom", loading := false, retryCount := 1 }, true) ∧
    (runAllFail 1 (⟨none, some "boom", false, 1⟩ : RetrySt) "boom").2 = 1 := by
  refine ⟨by decide, ?_⟩
  rw [runAllFail]
  norm_num

/-- Claim C3, amended: with `retry = N` and the counter at 0, a logical
call whose attempts all fail performs exactly N+1 attempts and ends with
the error stored; however the error state is set on every failed attempt
(not only the last), and the counter is never reset between logical
calls, so a subsequent all-failing logical call performs exactly one
attempt. -/
theorem retry_attempts_amended (retry : Nat) (msg : String) (r : Option Nat)
    (e : Option String) (l : Bool) :
    (runAllFail retry { response := r, error := e, loading := l, retryCount := 0 } msg).2
      = retry + 1 ∧
    ((runAllFail retry { response := r, error := e, loading := l, retryCount := 0 } msg).1).error
      = some msg ∧
    ((runAllFail retry { response := r, error := e, loading := l, retryCount := 0 } msg).1).retryCount
      = retry ∧
    (runAllFail retry
      ((runAllFail retry { response := r, error := e, loading := l, retryCount := 0 } msg).1)
      msg).2 = 1 := by
  obtain ⟨ha, hs⟩ := runAllFail_spec retry msg ⟨r, e, l, 0⟩
  refine ⟨by rw [ha]; simp, by rw [hs], by rw [hs]; simp, ?_⟩
  obtain ⟨ha2, _⟩ :=
    runAllFail_spec retry msg ((runAllFail retry ⟨r, e, l, 0⟩ msg).1)
  rw [ha2, hs]
  simp

/-! ## Claim C4 -/

/-- Claim C4 (confirmed): when caching is enabled and a non-expired entry
exists for the derived key, part_008's `fetchData` serves the cached
value (stored into `response` with loading cleared, via
`cacheHitUpdate`) and part_010's `execute` serves the cached value, in
both cases without a network dispatch; and the network branch of
`fetchData` is taken exactly when the cache check (enabled ∧ present ∧
non-expired, i.e. `isCacheValid`) fails. -/
theorem cache_hit_no_network
    (cacheExpiry now cacheDuration now2 cacheExpiry3 now3 : Nat)
    (store store2 store3 : List (String × CacheEntry))
    (url url3 cacheKey : String) (en e2 : CacheEntry) (s : RetrySt) (cb : Bool)
    (hlook : cacheLookup store url = some en)
    (hfresh : now - en.timestamp < cacheExpiry)
    (hk : cacheKey ≠ "")
    (hlook2 : cacheLookup store2 cacheKey = some e2)
    (hfresh2 : now2 - e2.timestamp < cacheDuration) :
    fetchDataStart true cacheExpiry now store url = .cacheHit en.data ∧
    (cacheHitUpdate s en.data).response = some en.data ∧
    (cacheHitUpdate s en.data).loading = false ∧
    executeStart (some cacheKey) cacheDuration now2 store2 = .cacheHit e2.data ∧
    (fetchDataStart cb cacheExpiry3 now3 store3 url3 = .network
        ↔ ¬(cb = true ∧ isCacheValid store3 cacheExpiry3 now3 url3 = true)) := by
  refine ⟨by simp [fetchDataStart, hlook, hfresh], by simp [cacheHitUpdate],
    by simp [cacheHitUpdate], by simp [executeStart, isCacheValid, hlook2, hfresh2, hk], ?_⟩
  cases cb with
  | false => simp [fetchDataStart]
  | true =>
    simp only [fetchDataStart, if_true]
    cases hl : cacheLookup store3 url3 with
    | none => simp [isCacheValid, hl]
    | some c =>
      by_cases hf : now3 - c.timestamp < cacheExpiry3
      · simp [isCacheValid, hl, hf]
      · simp [isCacheValid, hl, hf]

/-- Witness for `cache_hit_no_network` at concrete stores, keys and
clocks. -/
theorem cache_hit_no_network_witness :
    fetchDataStart true 60000 1000 [("u", ⟨42, 500⟩)] "u" = .cacheHit 42 ∧
    (cacheHitUpdate ⟨none, none, true, 0⟩ 42).response = some 42 ∧
    (cacheHitUpdate ⟨none, none, true, 0⟩ 42).loading = false ∧
    executeStart (some "k") 30000 1000 [("k", ⟨7, 900⟩)] = .cacheHit 7 ∧
    (fetchDataStart true 10 100 [] "z" = .network
        ↔ ¬(true = true ∧ isCacheValid [] 10 100 "z" = true)) := by
  exact cache_hit_no_network 60000 1000 30000 1000 10 100
    [("u", ⟨42, 500⟩)] [("k", ⟨7, 900⟩)] [] "u" "z" "k" ⟨42, 500⟩ ⟨7, 900⟩
    ⟨none, none, true, 0⟩ true (by decide) (by decide) (by decide) (by decide) (by decide)

/-! ## Claim C5 -/

/-- Claim C5, counterexample: `useRequest.run` does propagate a
non-cancellation failure across the component boundary — its returned
promise rejects with the same error it stored. -/
theorem run_rejects_failure_cex :
    (runSettle { data := some 1, error := none, loading := true } (.failure 5)).promise
      = PromiseResult.rejected 5 ∧
    (runSettle { data := some 1, error := none, loading := true } (.failure 5)).state.error
      = some 5 := by
  decide

/-- Claim C5, amended: every failure is caught in the hook, recorded in
the error state and forwarded to `onError`; axios4's `fetchData` never
rejects (it resolves on every outcome), but `useRequest.run` additionally
re-throws, so its returned promise rejects with the stored error. -/
theorem failure_containment_amended (c : HookCore) (e : Nat) (out : ReqOutcome) :
    (runSettle c (.failure e)).state.error = some e ∧
    (runSettle c (.failure e)).onErrorCalled = some e ∧
    (runSettle c (.failure e)).promise = PromiseResult.rejected e ∧
    fetchDataPromise out = VoidPromise.resolvedVoid := by
  refine ⟨by simp [runSettle], by simp [runSettle], by simp [runSettle], ?_⟩
  cases out <;> rfl

/-! ## Claim C6 -/

/-- Claim C6, counterexample: in `useRequest`, after the unmount cleanup
aborts the in-flight request, that request's cancelled settlement still
performs a loading-state write (`setLoading(false)` in the `finally`
block): along a reachable trace, loading is true after unmount and false
after the post-unmount settlement. -/
theorem unmount_loading_write_cex :
    Reachable (initUseRequest true none) (unmountStep (runStep (initUseRequest true none))) ∧
    (unmountStep (runStep (initUseRequest true none))).mounted = false ∧
    UStep (unmountStep (runStep (initUseRequest true none)))
      (.settle 0 .cancelled)
      (settleStep (unmountStep (runStep (initUseRequest true none))) 0 .cancelled) ∧
    (unmountStep (runStep (initUseRequest true none))).loading = true ∧
    (settleStep (unmountStep (runStep (initUseRequest true none))) 0 .cancelled).loading
      = false := by
  refine ⟨?_, by decide, .settle 0 .cancelled (by decide) (by decide), by decide, by decide⟩
  exact .step (.step .refl (.run (by decide))) (.unmount (by decide))

/-- Claim C6, amended: unmounting aborts the in-flight request in both
hooks. In any reachable unmounted `useRequest` state every remaining
settlement is a cancellation that updates neither data nor error (the
cancelled request's `finally` block does still write `loading := false`
after unmount, a write React discards). In axios4's `useAxios` the
unmount cleanup (`axCancel`) aborts the shared controller, after which
every settlement is a cancellation that skips `setState` entirely: data,
error and loading are all unchanged. -/
theorem unmount_no_state_update_amended (m : Bool) (d : Option Nat)
    (s s' t : HookState) (id i : Nat) (res : ReqOutcome)
    (t2 s2 s2' : AxState) (id2 : Nat) (res2 : ReqOutcome)
    (hreach : Reachable (initUseRequest m d) s)
    (hm : s.mounted = false)
    (hstep : UStep s (.settle id res) s')
    (ht : t.current = some i)
    (hab2 : s2.aborted = true)
    (hstep2 : AxStep s2 (.settle id2 res2) s2') :
    s'.data = s.data ∧ s'.error = s.error ∧ i ∈ (unmountStep t).aborted ∧
    (axCancel t2).aborted = true ∧
    s2'.data = s2.data ∧ s2'.error = s2.error ∧ s2'.loading = s2.loading := by
  have hax : s2'.data = s2.data ∧ s2'.error = s2.error ∧ s2'.loading = s2.loading := by
    cases hstep2 with
    | settle id2 res2 hin2 hforce2 =>
      have hres2 := hforce2 hab2
      subst hres2
      simp [axSettle]
  have hg := reachable_goodInflight hreach
  cases hstep with
  | settle id res hin hforce =>
    rcases hg id hin with hab | ⟨hmo, _⟩
    · have hres := hforce hab
      subst hres
      refine ⟨by simp [settleStep], by simp [settleStep], ?_, rfl, hax⟩
      simp only [unmountStep, abortCurrent, ht]
      exact List.mem_cons_self _ _
    · rw [hm] at hmo; cases hmo

/-- Witness for `unmount_no_state_update_amended`: the useRequest half at
the concrete run-unmount-settle trace, and the axios4 half at the
concrete fetch-cancel-settle trace. -/
theorem unmount_no_state_update_amended_witness :
    (settleStep (unmountStep (runStep (initUseRequest true none))) 0 ReqOutcome.cancelled).data
      = (unmountStep (runStep (initUseRequest true none))).data ∧
    (settleStep (unmountStep (runStep (initUseRequest true none))) 0 ReqOutcome.cancelled).error
      = (unmountStep (runStep (initUseRequest true none))).error ∧
    0 ∈ (unmountStep (runStep (initUseRequest true none))).aborted ∧
    (axCancel (axInit false)).aborted = true ∧
    (axSettle (axCancel (axFetch (axInit false))) 0 ReqOutcome.cancelled).data
      = (axCancel (axFetch (axInit false))).data ∧
    (axSettle (axCancel (axFetch (axInit false))) 0 ReqOutcome.cancelled).error
      = (axCancel (axFetch (axInit false))).error ∧
    (axSettle (axCancel (axFetch (axInit false))) 0 ReqOutcome.cancelled).loading
      = (axCancel (axFetch (axInit false))).loading := by
  exact unmount_no_state_update_amended true none
    (unmountStep (runStep (initUseRequest true none)))
    (settleStep (unmountStep (runStep (initUseRequest true none))) 0 ReqOutcome.cancelled)
    (runStep (initUseRequest true none)) 0 0 ReqOutcome.cancelled
    (axInit false) (axCancel (axFetch (axInit false)))
    (axSettle (axCancel (axFetch (axInit false))) 0 ReqOutcome.cancelled)
    0 ReqOutcome.cancelled
    (.step (.step .refl (.run (by decide))) (.unmount (by decide)))
    (by decide)
    (.settle 0 ReqOutcome.cancelled (by decide) (by decide))
    (by decide)
    (by decide)
    (.settle 0 ReqOutcome.cancelled (by decide) (by decide))

/-! ## Claim C7 -/

/-- Claim C7 (confirmed): a settlement by cancellation updates neither
the data state nor the error state, in `useRequest` (pure settlement view
and transition view) and in axios4's `useAxios`; and the error state is
assigned an error only by a non-cancellation failure. -/
theorem cancellation_no_state_update (c : HookCore) (t : AxState) (s : HookState)
    (id id2 : Nat) (v e : Nat) :
    (runSettle c .cancelled).state.data = c.data ∧
    (runSettle c .cancelled).state.error = c.error ∧
    (axSettle t id .cancelled).data = t.data ∧
    (axSettle t id .cancelled).error = t.error ∧
    (settleStep s id2 .cancelled).data = s.data ∧
    (settleStep s id2 .cancelled).error = s.error ∧
    (runSettle c (.success v)).state.error = c.error ∧
    (runSettle c (.failure e)).state.error = some e ∧
    (axSettle t id (.failure e)).error = some e := by
  simp [runSettle, axSettle, settleStep]

/-! ## Claim C8 -/

/-- Claim C8, counterexample: loading is not true only while a request is
outstanding — the initial state of an auto-triggering `useRequest`
(`manual = false`), and likewise of `useAxios` with `immediate = true`,
is reachable, has loading true, and has no request in flight. -/
theorem loading_true_without_request_cex :
    Reachable (initUseRequest false none) (initUseRequest false none) ∧
    (initUseRequest false none).loading = true ∧
    (initUseRequest false none).inflight = [] ∧
    (axInit true).loading = true ∧
    (axInit true).inflight = [] := by
  exact ⟨.refl, by decide, by decide, by decide, by decide⟩

/-- Claim C8, amended: loading becomes true when a request is dispatched
and false when a dispatched `useRequest` request settles (any outcome) or
an axios4 request settles by success or failure; but it is initialised to
the auto-run flag before any dispatch, and a superseded request's later
settlement can set it false while the newer request is still outstanding,
so it is not true exactly while a request is outstanding. -/
theorem loading_lifecycle_amended (m : Bool) (d : Option Nat) (s : HookState) (t : AxState)
    (id id2 : Nat) (res : ReqOutcome) (v e : Nat) :
    (initUseRequest m d).loading = !m ∧
    (initUseRequest m d).inflight = [] ∧
    (runStep s).loading = true ∧
    (settleStep s id res).loading = false ∧
    (axFetch t).loading = true ∧
    (axSettle t id2 (.success v)).loading = false ∧
    (axSettle t id2 (.failure e)).loading = false := by
  refine ⟨rfl, rfl, rfl, ?_, rfl, by simp [axSettle], by simp [axSettle]⟩
  cases res <;> simp [settleStep]

/-! ## Claim C9 -/

/-- Claim C9 (confirmed): `generateC(a, b)` returns one record per column
descriptor, in order, labelled by the descriptor's `headerName`; with
predefined options the listOptions are exactly those options' labels in
order, otherwise they are the distinct values of `b`'s entries at the
descriptor's field in first-occurrence order with duplicates removed
(stated via the independent fold `firstOcc`). -/
theorem generateC_spec (a : List ColDesc) (b : List Row) (i : Nat) (h : i < a.length) :
    (generateC a b).length = a.length ∧
    (generateC a b)[i]? = some
      { label := (a.get ⟨i, h⟩).headerName,
        listOptions :=
          match (a.get ⟨i, h⟩).options with
          | some opts => opts
          | none => firstOcc (b.map fun entry => entry ((a.get ⟨i, h⟩).field)) } := by
  refine ⟨by simp [generateC], ?_⟩
  simp only [generateC]
  rw [List.getElem?_map, List.getElem?_eq_getElem h]
  simp only [Option.map_some, List.get_eq_getElem]
  cases hopt : a[i].options with
  | some opts => simp [hopt]
  | none => simp [hopt, jsSetDedup_eq_firstOcc]

/-- Witness for `generateC_spec` on a two-descriptor input: the
options-free descriptor gets the deduplicated row values. -/
theorem generateC_spec_witness :
    (generateC [⟨"f", "H", some ["Y", "N"]⟩, ⟨"g", "G", none⟩]
        [fun _ => "v1", fun _ => "v2", fun _ => "v1"]).length = 2 ∧
    (generateC [⟨"f", "H", some ["Y", "N"]⟩, ⟨"g", "G", none⟩]
        [fun _ => "v1", fun _ => "v2", fun _ => "v1"])[1]? = some ⟨"G", ["v1", "v2"]⟩ := by
  have h := generateC_spec [⟨"f", "H", some ["Y", "N"]⟩, ⟨"g", "G", none⟩]
    [fun _ => "v1", fun _ => "v2", fun _ => "v1"] 1 (by decide)
  exact ⟨h.1, h.2⟩

/-! ## Claim C10 -/

/-- Claim C10 (confirmed): `transformToBarData` returns the distinct
component names in first-occurrence order as `labels`, and one series per
distinct label value in first-occurrence order (both stated via the
independent fold `firstOcc`); the series at index `i` carries stack `A`,
the label itself, the color of the first component bearing that label,
and per distinct name (in the same order) the value of the first
component matching both name and label, or 0 when none exists. -/
theorem transformToBarData_spec (components : List Component) (i : Nat)
    (hi : i < (firstOcc (components.map fun c => c.label)).length) :
    (transformToBarData components).labels = firstOcc (components.map fun c => c.name) ∧
    (transformToBarData components).barData.length
      = (firstOcc (components.map fun c => c.label)).length ∧
    (transformToBarData components).barData[i]? = some
      { data := (firstOcc (components.map fun c => c.name)).map (fun name =>
          match components.find? (fun comp =>
              comp.name = name && comp.label
                = (firstOcc (components.map fun c => c.label)).get ⟨i, hi⟩) with
          | some item => item.value
          | none => 0),
        stack := "A",
        label := (firstOcc (components.map fun c => c.label)).get ⟨i, hi⟩,
        color := (components.find? (fun comp =>
            comp.label = (firstOcc (components.map fun c => c.label)).get ⟨i, hi⟩)).map
          fun comp => comp.color } := by
  refine ⟨by simp [transformToBarData, jsSetDedup_eq_firstOcc], ?_, ?_⟩
  · simp [transformToBarData, jsSetDedup_eq_firstOcc]
  · simp only [transformToBarData, jsSetDedup_eq_firstOcc]
    rw [List.getElem?_map, List.getElem?_eq_getElem hi]
    simp only [Option.map_some', Option.map_some, List.get_eq_getElem]

/-- Witness for `transformToBarData_spec` on a three-component input with
two distinct names and two distinct labels. -/
theorem transformToBarData_spec_witness :
    (transformToBarData [⟨"n1", "l1", 5, "red"⟩, ⟨"n2", "l1", 3, "red"⟩,
        ⟨"n1", "l2", 2, "blue"⟩]).labels = ["n1", "n2"] ∧
    (transformToBarData [⟨"n1", "l1", 5, "red"⟩, ⟨"n2", "l1", 3, "red"⟩,
        ⟨"n1", "l2", 2, "blue"⟩]).barData.length = 2 ∧
    (transformToBarData [⟨"n1", "l1", 5, "red"⟩, ⟨"n2", "l1", 3, "red"⟩,
        ⟨"n1", "l2", 2, "blue"⟩]).barData[0]?
      = some { data := [5, 3], stack := "A", label := "l1", color := some "red" } := by
  have h := transformToBarData_spec [⟨"n1", "l1", 5, "red"⟩, ⟨"n2", "l1", 3, "red"⟩,
    ⟨"n1", "l2", 2, "blue"⟩] 0 (by decide)
  exact ⟨h.1, h.2.1, h.2.2⟩
